import Mathlib

/-!
# The host homogen table adapter of oneDAL's interop backend

A shallow embedding of
`cpp/oneapi/dal/table/backend/interop/host_homogen_table_adapter.cpp`:
the exception-to-status boundary, the feature-kind translation, the
constructor and `create`, the block-read entry points and the stub
operations, followed by the properties proved about them.

Conventions of the embedding.

* A C++ computation that may raise is a value of `Except dal_exception _`.
* A by-reference argument that the callee may change (`status_t&`,
  `block_desc_t&`) is passed in and returned.
* `ONEDAL_ASSERT` is taken in its release-build expansion (no code).
* Element values are an arbitrary type `α`; memory is a `List α` addressed
  by element offset; lists never fail to allocate.
-/

namespace interop

/-! ## Status vocabulary and exceptions -/

/-- Modelled from the spec: the legacy engine's error identifiers
(`daal::services::ErrorID`, declared outside `src/`). Only the identifiers the
adapter names are told apart; every other identifier is `other code`. -/
inductive ErrorID where
  | ErrorMemoryAllocationFailed
  | ErrorIncorrectDataRange
  | UnknownError
  | ErrorMethodNotImplemented
  | ErrorIncorrectParameter
  | other (code : Nat)
  deriving DecidableEq, Repr

/-- Modelled from the spec: the legacy status value (`daal::services::Status`,
declared outside `src/`): the collection of errors reported so far; it is OK
exactly when no error has been reported. -/
structure Status where
  errors : List ErrorID
  deriving DecidableEq, Repr

/-- Default-constructed status, `status_t()`: no error. -/
def Status.OK : Status := ⟨[]⟩

/-- Member `ok()` of a status. -/
def Status.ok (s : Status) : Bool := s.errors.isEmpty

/-- Member `add(id)` of a status: records one more error. -/
def Status.add (s : Status) (e : ErrorID) : Status := ⟨s.errors ++ [e]⟩

/-- Implicit conversion of an error identifier to a status, as in
`return daal::services::ErrorMethodNotImplemented;`. -/
def Status.ofError (e : ErrorID) : Status := ⟨[e]⟩

/-- Modelled from the spec: the exceptions a lower-level operation may raise
(the classes live outside `src/`), classified by the handler of
`convert_exception_to_status` that catches them; `bad_alloc` and
`out_of_range` stand for the class and everything derived from it. -/
inductive dal_exception where
  | bad_alloc
  | out_of_range
  | internal_error
  | other (tag : Nat)
  deriving DecidableEq, Repr

/-- Source lines 23-37. The body either returns a status or raises. -/
def convert_exception_to_status (body : Unit → Except dal_exception Status) : Status :=
  match body () with
  | .ok s => s
  | .error .bad_alloc => Status.ofError .ErrorMemoryAllocationFailed
  | .error .out_of_range => Status.ofError .ErrorIncorrectDataRange
  | .error _ => Status.ofError .UnknownError

/-! ## Feature metadata translation -/

/-- Modelled from the spec: the source table's per-column feature kind
(`feature_type`, an enum class declared outside `src/`). `unrecognised raw` is
any value of the enum's underlying type that is none of the four enumerators,
which is what the `default:` label of `get_daal_feature_type` receives. -/
inductive feature_type where
  | nominal
  | ordinal
  | interval
  | ratio
  | unrecognised (raw : Nat)
  deriving DecidableEq, Repr

/-- Modelled from the spec: the legacy feature kind
(`daal::data_management::features::FeatureType`, declared outside `src/`), with
the three enumerators the source names. -/
inductive FeatureType where
  | DAAL_CATEGORICAL
  | DAAL_ORDINAL
  | DAAL_CONTINUOUS
  deriving DecidableEq, Repr

/-- Source lines 39-47. -/
def get_daal_feature_type (t : feature_type) : Except dal_exception FeatureType :=
  match t with
  | .nominal => .ok .DAAL_CATEGORICAL
  | .ordinal => .ok .DAAL_ORDINAL
  | .interval => .ok .DAAL_CONTINUOUS
  | .ratio => .ok .DAAL_CONTINUOUS
  | .unrecognised _ => .error .internal_error

/-- Modelled from the spec: per-column feature metadata of a table handle
(`table_metadata`, declared outside `src/`): `get_feature_type(i)` is entry `i`
of the list and `get_feature_count()` its length. -/
structure table_metadata where
  feature_types : List feature_type
  deriving DecidableEq, Repr

/-- Modelled from the spec: one entry of the legacy dictionary
(`NumericTableFeature`, declared outside `src/`); only the field the adapter
writes is kept. -/
structure NumericTableFeature where
  featureType : FeatureType
  deriving DecidableEq, Repr

/-- Modelled from the spec: the legacy dictionary
(`NumericTableDictionary`, declared outside `src/`), one entry per column. -/
abbrev NumericTableDictionary := List NumericTableFeature

/-- Modelled from the spec: the dictionary the `NumericTable(columns, rows)`
base-class constructor (outside `src/`) sets up: one default entry per column. -/
def NumericTableDictionary.create (nColumns : Nat) : NumericTableDictionary :=
  List.replicate nColumns ⟨.DAAL_CONTINUOUS⟩

/-- The `for` loop of `convert_feature_information_to_daal`, source lines 52-55,
entered at index `i` with the feature kinds from `i` on still to translate.
`dst[i]` is the `i`-th entry (a write past the end, excluded by the function's
assertion, changes nothing). -/
def convert_feature_information_to_daal.loop :
    List feature_type → Nat → NumericTableDictionary → Except dal_exception NumericTableDictionary
  | [], _, dst => .ok dst
  | t :: rest, i, dst =>
    match get_daal_feature_type t with
    | .error e => .error e
    | .ok k => convert_feature_information_to_daal.loop rest (i + 1) (dst.set i ⟨k⟩)

/-- Source lines 49-56. -/
def convert_feature_information_to_daal (src : table_metadata) (dst : NumericTableDictionary) :
    Except dal_exception NumericTableDictionary :=
  convert_feature_information_to_daal.loop src.feature_types 0 dst

/-! ## Table handle, blocks and the underlying table interface -/

/-- Modelled from the spec: the data layout of a table handle (`data_layout`,
declared outside `src/`): row-major or column-major (spec 3), the two
enumerators the constructor tests. -/
inductive data_layout where
  | row_major
  | column_major
  deriving DecidableEq, Repr

/-- Scalar kinds: the adapter is instantiated for `std::int32_t`, `float` and
`double` (source lines 347-349) and the block entry points are overloaded for
`double`, `float` and `int`. -/
inductive scalar_type where
  | double
  | float
  | int
  deriving DecidableEq, Repr

/-- Modelled from the spec: the table handle (`homogen_table`, declared outside
`src/`) through the accessors the adapter consumes (spec 6): `get_row_count()`,
`get_column_count()`, `get_data_layout()`, the flat buffer behind
`get_data<Data>()`, `get_metadata()` and the `has_data()` predicate. -/
structure homogen_table (α : Type) where
  row_count : Nat
  column_count : Nat
  layout : data_layout
  data : List α
  metadata : table_metadata
  has_data : Bool

/-- Modelled from the spec: the legacy read/write flag
(`daal::data_management::ReadWriteMode`, declared outside `src/`). -/
inductive ReadWriteMode where
  | readOnly
  | writeOnly
  | readWrite
  deriving DecidableEq, Repr

/-- Where a block points: nowhere, into the source buffer at an element offset
(the zero-copy path), or at a freshly materialised buffer the block owns (the
copy path). -/
inductive BlockPtr (α : Type) where
  | null
  | source (offset : Nat)
  | temporary (buffer : List α)
  deriving DecidableEq, Repr

/-- Modelled from the spec: the block descriptor
(`daal::data_management::BlockDescriptor`, declared outside `src/`): the
resulting pointer, the number of columns (the row stride) and of rows. -/
structure BlockDescriptor (α : Type) where
  ptr : BlockPtr α
  ncols : Nat
  nrows : Nat
  deriving DecidableEq, Repr

/-- The `owns_temporary_buffer` flag of spec 3. -/
def BlockDescriptor.owns_temporary_buffer {α : Type} (b : BlockDescriptor α) : Bool :=
  match b.ptr with
  | .temporary _ => true
  | _ => false

/-- The `nrows * ncols` values a consumer reads through the block's pointer,
given the memory of the source buffer. -/
def BlockDescriptor.values {α : Type} (memory : List α) (b : BlockDescriptor α) : List α :=
  match b.ptr with
  | .null => []
  | .source offset => (memory.drop offset).take (b.nrows * b.ncols)
  | .temporary buffer => buffer

/-- What a block-read implementation leaves behind: the status it returns or
the exception it raises, and the block descriptor it was handed by reference. -/
structure impl_result (α : Type) where
  outcome : Except dal_exception Status
  block : BlockDescriptor α

/-- Modelled from the spec: the legacy table interface
(`daal::data_management::NumericTable`, declared outside `src/`) as far as the
adapter calls it through `base`: the two virtual block reads, each taking the
request, the block's scalar kind and the block. -/
structure NumericTable (α : Type) where
  getBlockOfRows : Nat → Nat → ReadWriteMode → scalar_type → BlockDescriptor α → impl_result α
  getBlockOfColumnValues :
    Nat → Nat → Nat → ReadWriteMode → scalar_type → BlockDescriptor α → impl_result α

/-! ## The layout converter behind `base` -/

/-- Modelled from the spec: the row part of the Block Descriptor invariant of
spec 3, `row_begin < R` and `row_end ≤ R`, for the request of `num` rows from
row `idx`. -/
def rows_in_range (R idx num : Nat) : Bool :=
  decide (idx < R) && decide (idx + num ≤ R)

/-- Modelled from the spec: the column part of the Block Descriptor invariant of
spec 3, `column_index < C`. -/
def column_in_range (C column : Nat) : Bool :=
  decide (column < C)

/-- Modelled from the spec: the range-error status of spec 4.1, in the status
vocabulary of the source (the one `out_of_range` is converted to). -/
def range_error : Status := Status.ofError .ErrorIncorrectDataRange

/-- Modelled from the spec: element conversion on the copy path (spec 4.1): the
numeric cast `cast` between two different scalar kinds, nothing between equal
ones. -/
def convert_value {α : Type} (cast : scalar_type → scalar_type → α → α)
    (src dst : scalar_type) (x : α) : α :=
  if src = dst then x else cast src dst x

/-- Modelled from the spec: the rows `r, r+1, ..., r+num-1` of a gathered
block, one after the other (array-of-structures order). -/
def gather_rows {α : Type} (row : Nat → List α) : Nat → Nat → List α
  | 0, _ => []
  | num + 1, r => row r ++ gather_rows row num (r + 1)

/-- Modelled from the spec: the legacy homogeneous table
(`HomogenNumericTable`, outside `src/`): `nRows × nColumns` elements of kind
`Data` stored row by row in `memory` from element offset `ptr`. -/
structure HomogenNumericTable (α : Type) where
  memory : List α
  ptr : Nat
  nColumns : Nat
  nRows : Nat
  Data : scalar_type

/-- Modelled from the spec: `HomogenNumericTable<Data>::create` over a user
buffer (outside `src/`); wrapping an existing buffer allocates nothing and
reports no error. -/
def HomogenNumericTable.create {α : Type} (memory : List α) (ptr nColumns nRows : Nat)
    (Data : scalar_type) : HomogenNumericTable α :=
  ⟨memory, ptr, nColumns, nRows, Data⟩

/-- Modelled from the spec: the Layout Converter of spec 4.1 for a row block of a
row-major source (`HomogenNumericTable::getBlockOfRows`, outside `src/`). A
range outside `[0,R)` is a range error and leaves the block alone; a block of
whole rows at the native kind is contiguous and is returned as a pointer into
the source; otherwise the values are converted into a temporary buffer. -/
def HomogenNumericTable.getBlockOfRows {α : Type} (cast : scalar_type → scalar_type → α → α)
    (t : HomogenNumericTable α) (idx num : Nat) (_rwflag : ReadWriteMode)
    (BlockData : scalar_type) (block : BlockDescriptor α) : impl_result α :=
  if rows_in_range t.nRows idx num then
    if BlockData = t.Data then
      ⟨.ok Status.OK, ⟨.source (t.ptr + idx * t.nColumns), t.nColumns, num⟩⟩
    else
      ⟨.ok Status.OK,
        ⟨.temporary (((t.memory.drop (t.ptr + idx * t.nColumns)).take (num * t.nColumns)).map
            (cast t.Data BlockData)), t.nColumns, num⟩⟩
  else ⟨.ok range_error, block⟩

/-- Modelled from the spec: the Layout Converter of spec 4.1 for a single column
of a row-major source (`HomogenNumericTable::getBlockOfColumnValues`, outside
`src/`): always the copy path, gathering with stride `nColumns`. -/
def HomogenNumericTable.getBlockOfColumnValues {α : Type} [Inhabited α]
    (cast : scalar_type → scalar_type → α → α)
    (t : HomogenNumericTable α) (column idx num : Nat) (_rwflag : ReadWriteMode)
    (BlockData : scalar_type) (block : BlockDescriptor α) : impl_result α :=
  if column_in_range t.nColumns column && rows_in_range t.nRows idx num then
    ⟨.ok Status.OK,
      ⟨.temporary (gather_rows
          (fun r => [convert_value cast t.Data BlockData
            (t.memory.getD (t.ptr + r * t.nColumns + column) default)]) num idx), 1, num⟩⟩
  else ⟨.ok range_error, block⟩

/-- The legacy homogeneous table seen through the interface `base` points to. -/
def HomogenNumericTable.toNumericTable {α : Type} [Inhabited α]
    (cast : scalar_type → scalar_type → α → α) (t : HomogenNumericTable α) : NumericTable α :=
  ⟨HomogenNumericTable.getBlockOfRows cast t, HomogenNumericTable.getBlockOfColumnValues cast t⟩

/-- One column array bound to a structure-of-arrays table: where it starts and
the scalar kind `setArray<Data>` registered for it. -/
structure column_array where
  ptr : Nat
  type : scalar_type
  deriving DecidableEq, Repr

/-- Modelled from the spec: the legacy structure-of-arrays table
(`SOANumericTable`, outside `src/`): per column, the array bound to it (if any),
as an element offset into `memory`. -/
structure SOANumericTable (α : Type) where
  memory : List α
  nColumns : Nat
  nRows : Nat
  arrays : List (Option column_array)

/-- Modelled from the spec: `SOANumericTable::create(nFeatures, nRows, ...)`
(outside `src/`): a table with no column bound yet; it reports no error. -/
def SOANumericTable.create {α : Type} (memory : List α) (nColumns nRows : Nat) :
    SOANumericTable α :=
  ⟨memory, nColumns, nRows, List.replicate nColumns none⟩

/-- Modelled from the spec: `SOANumericTable::setArray<Data>(ptr, idx)` (outside
`src/`): binds column `idx` to the array at `ptr`, without copying. -/
def SOANumericTable.setArray {α : Type} (t : SOANumericTable α) (Data : scalar_type)
    (ptr idx : Nat) : SOANumericTable α :=
  { t with arrays := t.arrays.set idx (some ⟨ptr, Data⟩) }

/-- The column arrays of a table when every column is bound. -/
def bound_columns : List (Option column_array) → Option (List column_array)
  | [] => some []
  | none :: _ => none
  | some a :: rest => (bound_columns rest).map (fun l => a :: l)

/-- Modelled from the spec: the Layout Converter of spec 4.1 for a row block of a
column-major source (`SOANumericTable::getBlockOfRows`, outside `src/`): always
the copy path, into row-major order. The spec names no status for a table with
an unbound column (the constructor binds them all); it is reported as
`UnknownError`. -/
def SOANumericTable.getBlockOfRows {α : Type} [Inhabited α]
    (cast : scalar_type → scalar_type → α → α)
    (t : SOANumericTable α) (idx num : Nat) (_rwflag : ReadWriteMode)
    (BlockData : scalar_type) (block : BlockDescriptor α) : impl_result α :=
  if rows_in_range t.nRows idx num then
    match bound_columns t.arrays with
    | none => ⟨.ok (Status.ofError .UnknownError), block⟩
    | some columns =>
      ⟨.ok Status.OK,
        ⟨.temporary (gather_rows
            (fun r => columns.map (fun a =>
              convert_value cast a.type BlockData (t.memory.getD (a.ptr + r) default))) num idx),
          t.nColumns, num⟩⟩
  else ⟨.ok range_error, block⟩

/-- Modelled from the spec: the Layout Converter of spec 4.1 for a single column
of a column-major source (`SOANumericTable::getBlockOfColumnValues`, outside
`src/`): at the native kind a pointer into the column's own array, otherwise a
converted temporary copy. -/
def SOANumericTable.getBlockOfColumnValues {α : Type}
    (cast : scalar_type → scalar_type → α → α)
    (t : SOANumericTable α) (column idx num : Nat) (_rwflag : ReadWriteMode)
    (BlockData : scalar_type) (block : BlockDescriptor α) : impl_result α :=
  if column_in_range t.nColumns column && rows_in_range t.nRows idx num then
    match t.arrays.getD column none with
    | none => ⟨.ok (Status.ofError .UnknownError), block⟩
    | some a =>
      if BlockData = a.type then
        ⟨.ok Status.OK, ⟨.source (a.ptr + idx), 1, num⟩⟩
      else
        ⟨.ok Status.OK,
          ⟨.temporary (((t.memory.drop (a.ptr + idx)).take num).map (cast a.type BlockData)),
            1, num⟩⟩
  else ⟨.ok range_error, block⟩

/-- The structure-of-arrays table seen through the interface `base` points to. -/
def SOANumericTable.toNumericTable {α : Type} [Inhabited α]
    (cast : scalar_type → scalar_type → α → α) (t : SOANumericTable α) : NumericTable α :=
  ⟨SOANumericTable.getBlockOfRows cast t, SOANumericTable.getBlockOfColumnValues cast t⟩

/-! ## The adapter -/

/-- Modelled from the spec: memory status of a legacy table
(`NumericTableIface::MemoryStatus`, declared outside `src/`). -/
inductive MemoryStatus where
  | notAllocated
  | userAllocated
  | internallyAllocated
  deriving DecidableEq, Repr

/-- Modelled from the spec: storage layout tag of a legacy table
(`NumericTableIface::StorageLayout`, declared outside `src/`). -/
inductive StorageLayout where
  | layout_unknown
  | soa
  | aos
  deriving DecidableEq, Repr

/-- A constructed adapter: the members the constructor of source lines 304-345
assigns. `base` is the underlying legacy table every block read is forwarded
to, `original_table_` the stored table handle, `dictionary` the legacy
dictionary behind `getDictionarySharedPtr()`. -/
structure host_homogen_table_adapter (α : Type) where
  base : NumericTable α
  original_table_ : homogen_table α
  dictionary : NumericTableDictionary
  memStatus : MemoryStatus
  layout : StorageLayout

/-- What a run of the constructor leaves behind, with the status it was handed
by reference: either it took one of its two early `return`s, having assigned no
member (the dictionary is the one the base class set up), or it ran to the end. -/
inductive construction (α : Type) where
  | returned_early (stat : Status) (dictionary : NumericTableDictionary)
  | completed (stat : Status) (self : host_homogen_table_adapter α)

/-- The by-reference status after the constructor. -/
def construction.stat {α : Type} : construction α → Status
  | .returned_early stat _ => stat
  | .completed stat _ => stat

/-- The `for` loop of source lines 332-334, entered at column `i` with
`remaining` columns to go: column `i` is bound to `&data[i * nRows]`. -/
def bind_columns {α : Type} (Data : scalar_type) (nRows : Nat) :
    Nat → Nat → SOANumericTable α → SOANumericTable α
  | 0, _, baseSOA => baseSOA
  | remaining + 1, i, baseSOA =>
    bind_columns Data nRows remaining (i + 1) (baseSOA.setArray Data (i * nRows) i)

/-- The constructor of source lines 304-345 for the instantiation at `Data`,
run on `table` and the status `stat`. The two layout tests of lines 320 and 327
exclude each other and, the layout being one of the two, one of them holds. -/
def host_homogen_table_adapter.ctor {α : Type} [Inhabited α]
    (cast : scalar_type → scalar_type → α → α) (Data : scalar_type)
    (table : homogen_table α) (stat : Status) : Except dal_exception (construction α) :=
  let dictionary := NumericTableDictionary.create table.column_count
  if !stat.ok then .ok (.returned_early stat dictionary)
  else if !table.has_data then
    .ok (.returned_early (stat.add .ErrorIncorrectParameter) dictionary)
  else
    let nFeatures := table.column_count
    let nRows := table.row_count
    let base : NumericTable α :=
      match table.layout with
      | .row_major =>
        (HomogenNumericTable.create table.data 0 nFeatures nRows Data).toNumericTable cast
      | .column_major =>
        (bind_columns Data nRows nFeatures 0
          (SOANumericTable.create table.data nFeatures nRows)).toNumericTable cast
    match convert_feature_information_to_daal table.metadata dictionary with
    | .error e => .error e
    | .ok daal_dictionary =>
      .ok (.completed stat ⟨base, table, daal_dictionary, .userAllocated, .aos⟩)

/-- The first definition of the constructor, source lines 82-107, as far as the
status and the dictionary go. There the legacy homogeneous table is the base
class, and its constructor (outside `src/`) is handed the status before the
body runs: `base_init` is what it does to the status. -/
def host_homogen_table_adapter.ctor_first {α : Type} (base_init : Status → Status)
    (table : homogen_table α) (status : Status) :
    Except dal_exception (Status × NumericTableDictionary) :=
  let status := base_init status
  let dictionary := NumericTableDictionary.create table.column_count
  if !status.ok then .ok (status, dictionary)
  else if !table.has_data then .ok (status.add .ErrorIncorrectParameter, dictionary)
  else
    match convert_feature_information_to_daal table.metadata dictionary with
    | .error e => .error e
    | .ok daal_dictionary => .ok (status, daal_dictionary)

/-- Source lines 74-80. `status_to_exception` is the helper declared outside
`src/` that is handed the status the constructor leaves: it returns or raises.
The result is the pointer to the object the constructor ran on. -/
def host_homogen_table_adapter.create {α : Type} [Inhabited α]
    (status_to_exception : Status → Except dal_exception Unit)
    (cast : scalar_type → scalar_type → α → α)
    (Data : scalar_type) (table : homogen_table α) : Except dal_exception (construction α) :=
  let internal_stat := Status.OK
  match host_homogen_table_adapter.ctor cast Data table internal_stat with
  | .error e => .error e
  | .ok result =>
    match status_to_exception result.stat with
    | .error e => .error e
    | .ok () => .ok result

/-- Source lines 262-274, for the block scalar kind `BlockData`. -/
def host_homogen_table_adapter.read_rows_impl {α : Type} (self : host_homogen_table_adapter α)
    (vector_idx vector_num : Nat) (rwflag : ReadWriteMode) (BlockData : scalar_type)
    (block : BlockDescriptor α) : impl_result α :=
  if rwflag ≠ .readOnly then
    ⟨.ok (Status.ofError .ErrorMethodNotImplemented), block⟩
  else self.base.getBlockOfRows vector_idx vector_num rwflag BlockData block

/-- Source lines 276-290, for the block scalar kind `BlockData`. -/
def host_homogen_table_adapter.read_column_values_impl {α : Type}
    (self : host_homogen_table_adapter α) (feature_idx vector_idx value_num : Nat)
    (rwflag : ReadWriteMode) (BlockData : scalar_type) (block : BlockDescriptor α) :
    impl_result α :=
  if rwflag ≠ .readOnly then
    ⟨.ok (Status.ofError .ErrorMethodNotImplemented), block⟩
  else self.base.getBlockOfColumnValues feature_idx vector_idx value_num rwflag BlockData block

/-- What a public block operation leaves behind: the returned status, the block
descriptor handed in by reference, and the adapter object itself. -/
structure call_result (α : Type) where
  status : Status
  block : BlockDescriptor α
  self : host_homogen_table_adapter α

/-- Source lines 109-137: the three overloads of `getBlockOfRows`, one per block
scalar kind `BlockData`. -/
def host_homogen_table_adapter.getBlockOfRows {α : Type} (self : host_homogen_table_adapter α)
    (vector_idx vector_num : Nat) (rwflag : ReadWriteMode) (BlockData : scalar_type)
    (block : BlockDescriptor α) : call_result α :=
  let r := self.read_rows_impl vector_idx vector_num rwflag BlockData block
  ⟨convert_exception_to_status (fun _ => r.outcome), r.block, self⟩

/-- Source lines 139-173: the three overloads of `getBlockOfColumnValues`, one
per block scalar kind `BlockData`. -/
def host_homogen_table_adapter.getBlockOfColumnValues {α : Type}
    (self : host_homogen_table_adapter α) (feature_idx vector_idx value_num : Nat)
    (rwflag : ReadWriteMode) (BlockData : scalar_type) (block : BlockDescriptor α) :
    call_result α :=
  let r := self.read_column_values_impl feature_idx vector_idx value_num rwflag BlockData block
  ⟨convert_exception_to_status (fun _ => r.outcome), r.block, self⟩

/-- Source lines 214-227: the three overloads of `assign`, one per scalar kind
of the value. The result is the returned status and the adapter object. -/
def host_homogen_table_adapter.assign {α : Type} (self : host_homogen_table_adapter α)
    (_kind : scalar_type) (_value : α) : Status × host_homogen_table_adapter α :=
  (Status.ofError .ErrorMethodNotImplemented, self)

/-- Source lines 229-232; the memory type is a plain tag. -/
def host_homogen_table_adapter.allocateDataMemoryImpl {α : Type}
    (self : host_homogen_table_adapter α) (_memType : Nat) :
    Status × host_homogen_table_adapter α :=
  (Status.ofError .ErrorMethodNotImplemented, self)

/-- Source lines 234-237. -/
def host_homogen_table_adapter.setNumberOfColumnsImpl {α : Type}
    (self : host_homogen_table_adapter α) (_nColumns : Nat) :
    Status × host_homogen_table_adapter α :=
  (Status.ofError .ErrorMethodNotImplemented, self)

/-- Source lines 245-248; the archive is any value of any type. -/
def host_homogen_table_adapter.serializeImpl {α Archive : Type}
    (self : host_homogen_table_adapter α) (_arch : Archive) :
    Status × host_homogen_table_adapter α :=
  (Status.ofError .ErrorMethodNotImplemented, self)

/-- Source lines 250-254; the archive is any value of any type. -/
def host_homogen_table_adapter.deserializeImpl {α Archive : Type}
    (self : host_homogen_table_adapter α) (_arch : Archive) :
    Status × host_homogen_table_adapter α :=
  (Status.ofError .ErrorMethodNotImplemented, self)

/-- Source lines 175-191: the three overloads of `releaseBlockOfRows`, one per
block scalar kind `BlockData`. `reset` is the member `reset()` of the block
descriptor class (declared outside `src/`): whatever it does to a descriptor. -/
def host_homogen_table_adapter.releaseBlockOfRows {α : Type}
    (self : host_homogen_table_adapter α) (reset : BlockDescriptor α → BlockDescriptor α)
    (_BlockData : scalar_type) (block : BlockDescriptor α) : call_result α :=
  ⟨Status.OK, reset block, self⟩

/-- Source lines 193-212: the three overloads of `releaseBlockOfColumnValues`,
one per block scalar kind `BlockData`; `reset` as for `releaseBlockOfRows`. -/
def host_homogen_table_adapter.releaseBlockOfColumnValues {α : Type}
    (self : host_homogen_table_adapter α) (reset : BlockDescriptor α → BlockDescriptor α)
    (_BlockData : scalar_type) (block : BlockDescriptor α) : call_result α :=
  ⟨Status.OK, reset block, self⟩

/-- Modelled from the spec: the request record the range predicates read
(`block_info`, declared outside `src/`), with the four members they use. The
indices are natural numbers: every row and column index enters the adapter as
a `std::size_t` argument of a block entry point. -/
structure block_info where
  row_begin_index : Nat
  row_end_index : Nat
  column_index : Nat
  single_column_requested : Bool
  deriving DecidableEq, Repr

/-- Source lines 292-296. -/
def host_homogen_table_adapter.check_row_indexes_in_range {α : Type}
    (self : host_homogen_table_adapter α) (info : block_info) : Bool :=
  let row_count := self.original_table_.row_count
  decide (info.row_begin_index < row_count) && decide (info.row_end_index ≤ row_count)

/-- Source lines 298-302. -/
def host_homogen_table_adapter.check_column_index_in_range {α : Type}
    (self : host_homogen_table_adapter α) (info : block_info) : Bool :=
  let column_count := self.original_table_.column_count
  info.single_column_requested && decide (info.column_index < column_count)

/-- A read-only row request, the release of the block it filled, and the same
request again on the released block: the results of the two requests. -/
def rows_read_release_read {α : Type} (self : host_homogen_table_adapter α)
    (reset : BlockDescriptor α → BlockDescriptor α) (vector_idx vector_num : Nat)
    (BlockData : scalar_type) (block : BlockDescriptor α) : call_result α × call_result α :=
  let first := self.getBlockOfRows vector_idx vector_num .readOnly BlockData block
  let released := first.self.releaseBlockOfRows reset BlockData first.block
  let second := released.self.getBlockOfRows vector_idx vector_num .readOnly BlockData
    released.block
  (first, second)

/-- A read-only column request, the release of the block it filled, and the
same request again on the released block: the results of the two requests. -/
def column_read_release_read {α : Type} (self : host_homogen_table_adapter α)
    (reset : BlockDescriptor α → BlockDescriptor α) (feature_idx vector_idx value_num : Nat)
    (BlockData : scalar_type) (block : BlockDescriptor α) : call_result α × call_result α :=
  let first := self.getBlockOfColumnValues feature_idx vector_idx value_num .readOnly BlockData
    block
  let released := first.self.releaseBlockOfColumnValues reset BlockData first.block
  let second := released.self.getBlockOfColumnValues feature_idx vector_idx value_num .readOnly
    BlockData released.block
  (first, second)

/-- The adapter objects the failing requests leave behind: a row and a column
request with the flag `rwflag`, and each stub operation. -/
def after_failing_request {α Archive : Type} (self : host_homogen_table_adapter α)
    (feature_idx vector_idx vector_num : Nat) (rwflag : ReadWriteMode)
    (BlockData : scalar_type) (block : BlockDescriptor α) (value : α) (memType nColumns : Nat)
    (arch : Archive) : List (host_homogen_table_adapter α) :=
  [(self.getBlockOfRows vector_idx vector_num rwflag BlockData block).self,
   (self.getBlockOfColumnValues feature_idx vector_idx vector_num rwflag BlockData block).self,
   (self.assign .float value).2, (self.assign .double value).2, (self.assign .int value).2,
   (self.allocateDataMemoryImpl memType).2, (self.setNumberOfColumnsImpl nColumns).2,
   (self.serializeImpl arch).2, (self.deserializeImpl arch).2]

/-! ## Sample inputs -/

/-- An underlying table whose every block read raises `e`. -/
def raising_table (α : Type) (e : dal_exception) : NumericTable α :=
  ⟨fun _ _ _ _ block => ⟨.error e, block⟩, fun _ _ _ _ _ block => ⟨.error e, block⟩⟩

/-- An adapter whose underlying table raises `e` on every block read. -/
def raising_adapter (α : Type) (e : dal_exception) : host_homogen_table_adapter α :=
  ⟨raising_table α e, ⟨1, 1, .row_major, [], ⟨[.ratio]⟩, true⟩, [⟨.DAAL_CONTINUOUS⟩],
    .userAllocated, .aos⟩

/-- A numeric cast for sample values: natural numbers are kept as they are. -/
def sample_cast : scalar_type → scalar_type → Nat → Nat := fun _ _ x => x

/-- A `status_to_exception` that returns on an OK status and raises otherwise. -/
def sample_status_to_exception (s : Status) : Except dal_exception Unit :=
  if s.ok then .ok () else .error (.other 0)

/-- A table handle without data, whose metadata holds an unrecognised kind. -/
def sample_no_data : homogen_table Nat :=
  ⟨0, 0, .row_major, [], ⟨[.nominal, .unrecognised 7]⟩, false⟩

/-- A 4 by 2 table handle whose second column has an unrecognised kind. -/
def sample_unrecognised : homogen_table Nat :=
  ⟨4, 2, .row_major, [1, 2, 3, 4, 5, 6, 7, 8], ⟨[.nominal, .unrecognised 7]⟩, true⟩

/-- The 4 by 2 row-major table `[[1,2],[3,4],[5,6],[7,8]]` of spec 8. -/
def sample_row_major : homogen_table Nat :=
  ⟨4, 2, .row_major, [1, 2, 3, 4, 5, 6, 7, 8], ⟨[.ratio, .ratio]⟩, true⟩

/-- The same table in column-major storage order `[1,3,5,7,2,4,6,8]`. -/
def sample_column_major : homogen_table Nat :=
  ⟨4, 2, .column_major, [1, 3, 5, 7, 2, 4, 6, 8], ⟨[.ratio, .ratio]⟩, true⟩

/-- The adapter `create` returns for `sample_row_major`. -/
def sample_row_major_adapter : host_homogen_table_adapter Nat :=
  ⟨(HomogenNumericTable.create sample_row_major.data 0 2 4 .float).toNumericTable sample_cast,
    sample_row_major, [⟨.DAAL_CONTINUOUS⟩, ⟨.DAAL_CONTINUOUS⟩], .userAllocated, .aos⟩

/-- The adapter `create` returns for `sample_column_major`. -/
def sample_column_major_adapter : host_homogen_table_adapter Nat :=
  ⟨(bind_columns .float 4 2 0
      (SOANumericTable.create sample_column_major.data 2 4)).toNumericTable sample_cast,
    sample_column_major, [⟨.DAAL_CONTINUOUS⟩, ⟨.DAAL_CONTINUOUS⟩], .userAllocated, .aos⟩

/-- A `reset()` that drops the pointer of a descriptor and keeps its counts. -/
def sample_reset (b : BlockDescriptor Nat) : BlockDescriptor Nat :=
  { b with ptr := .null }

/-! ## Auxiliary lemmas -/

theorem loop_unrecognised (ts : List feature_type) :
    ∀ (i : Nat) (dst : NumericTableDictionary) (raw : Nat),
      feature_type.unrecognised raw ∈ ts →
      convert_feature_information_to_daal.loop ts i dst = .error .internal_error := by
  induction ts with
  | nil => intro i dst raw h; simp at h
  | cons t rest ih =>
    intro i dst raw h
    cases t with
    | unrecognised r => rfl
    | nominal =>
      have h2 : feature_type.unrecognised raw ∈ rest := by simpa using h
      exact ih _ _ raw h2
    | ordinal =>
      have h2 : feature_type.unrecognised raw ∈ rest := by simpa using h
      exact ih _ _ raw h2
    | interval =>
      have h2 : feature_type.unrecognised raw ∈ rest := by simpa using h
      exact ih _ _ raw h2
    | ratio =>
      have h2 : feature_type.unrecognised raw ∈ rest := by simpa using h
      exact ih _ _ raw h2

theorem bind_columns_frame {α : Type} (Data : scalar_type) (nRows : Nat) :
    ∀ (remaining i : Nat) (t : SOANumericTable α),
      (bind_columns Data nRows remaining i t).memory = t.memory ∧
      (bind_columns Data nRows remaining i t).nColumns = t.nColumns ∧
      (bind_columns Data nRows remaining i t).nRows = t.nRows ∧
      (bind_columns Data nRows remaining i t).arrays.length = t.arrays.length := by
  intro remaining
  induction remaining with
  | zero => intro i t; simp [bind_columns]
  | succ k ih =>
    intro i t
    obtain ⟨h1, h2, h3, h4⟩ := ih (i + 1) (t.setArray Data (i * nRows) i)
    simp only [bind_columns]
    refine ⟨h1, h2, h3, ?_⟩
    rw [h4]; simp [SOANumericTable.setArray]

theorem bind_columns_getElem? {α : Type} (Data : scalar_type) (nRows : Nat) :
    ∀ (remaining i : Nat) (t : SOANumericTable α) (j : Nat),
      (bind_columns Data nRows remaining i t).arrays[j]? =
        if i ≤ j ∧ j < i + remaining ∧ j < t.arrays.length
        then some (some ⟨j * nRows, Data⟩) else t.arrays[j]? := by
  intro remaining
  induction remaining with
  | zero =>
    intro i t j
    have h : ¬ (i ≤ j ∧ j < i + 0 ∧ j < t.arrays.length) := by omega
    rw [if_neg h]
    rfl
  | succ k ih =>
    intro i t j
    simp only [bind_columns]
    rw [ih]
    simp only [SOANumericTable.setArray, List.length_set]
    by_cases hj : j = i
    · subst hj
      have h1 : ¬ (j + 1 ≤ j ∧ j < j + 1 + k ∧ j < t.arrays.length) := by omega
      rw [if_neg h1]
      by_cases hl : j < t.arrays.length
      · have h2 : (j ≤ j ∧ j < j + (k + 1) ∧ j < t.arrays.length) := by omega
        rw [if_pos h2, List.getElem?_set_self hl]
      · have h2 : ¬ (j ≤ j ∧ j < j + (k + 1) ∧ j < t.arrays.length) := by omega
        rw [if_neg h2, List.getElem?_eq_none (by simpa using hl),
          List.getElem?_eq_none (by simpa using hl)]
    · have hne : i ≠ j := fun h => hj h.symm
      by_cases hc : i + 1 ≤ j ∧ j < i + 1 + k ∧ j < t.arrays.length
      · have h2 : (i ≤ j ∧ j < i + (k + 1) ∧ j < t.arrays.length) := by omega
        rw [if_pos hc, if_pos h2]
      · have h2 : ¬ (i ≤ j ∧ j < i + (k + 1) ∧ j < t.arrays.length) := by omega
        rw [if_neg hc, if_neg h2, List.getElem?_set_ne hne]

theorem bind_columns_arrays {α : Type} (Data : scalar_type) (memory : List α) (C R : Nat) :
    (bind_columns Data R C 0 (SOANumericTable.create memory C R)).arrays =
      (List.range C).map (fun c => some ⟨c * R, Data⟩) := by
  apply List.ext_getElem?
  intro j
  rw [bind_columns_getElem?]
  simp only [SOANumericTable.create, List.length_replicate]
  by_cases hj : j < C
  · have h : (0 ≤ j ∧ j < 0 + C ∧ j < C) := by omega
    rw [if_pos h]
    simp [List.getElem?_range, hj]
  · have h : ¬ (0 ≤ j ∧ j < 0 + C ∧ j < C) := by omega
    rw [if_neg h, List.getElem?_eq_none (by simpa using hj),
      List.getElem?_eq_none (by simpa using hj)]

theorem bound_columns_map_some (l : List column_array) :
    bound_columns (l.map some) = some l := by
  induction l with
  | nil => rfl
  | cons a rest ih => simp [bound_columns, ih]

theorem gather_rows_length {α : Type} (row : Nat → List α) (C : Nat)
    (hrow : ∀ r, (row r).length = C) :
    ∀ (num start : Nat), (gather_rows row num start).length = num * C := by
  intro num
  induction num with
  | zero => intro start; simp [gather_rows]
  | succ k ih =>
    intro start
    simp only [gather_rows, List.length_append, hrow, ih]
    ring

theorem gather_rows_getElem? {α : Type} (row : Nat → List α) (C : Nat)
    (hrow : ∀ r, (row r).length = C) :
    ∀ (num start j c : Nat), j < num → c < C →
      (gather_rows row num start)[j * C + c]? = (row (start + j))[c]? := by
  intro num
  induction num with
  | zero => intro start j c hj; omega
  | succ k ih =>
    intro start j c hj hc
    simp only [gather_rows]
    cases j with
    | zero =>
      have hlt : 0 * C + c < (row start).length := by rw [hrow]; omega
      rw [List.getElem?_append_left hlt]
      simp
    | succ j =>
      have hge : (row start).length ≤ (j + 1) * C + c := by
        rw [hrow]; nlinarith
      rw [List.getElem?_append_right hge, hrow]
      have : (j + 1) * C + c - C = j * C + c := by
        have : (j + 1) * C = j * C + C := by ring
        omega
      rw [this, ih (start + 1) j c (by omega) hc]
      have : start + 1 + j = start + (j + 1) := by omega
      rw [this]

theorem ctor_completed {α : Type} [Inhabited α]
    (cast : scalar_type → scalar_type → α → α) (Data : scalar_type)
    (table : homogen_table α) (stat0 stat : Status) (self : host_homogen_table_adapter α)
    (h : host_homogen_table_adapter.ctor cast Data table stat0 = .ok (.completed stat self)) :
    table.has_data = true ∧ stat = stat0 ∧ stat0.ok = true ∧ self.original_table_ = table ∧
    self.base =
      (match table.layout with
        | .row_major =>
          (HomogenNumericTable.create table.data 0 table.column_count table.row_count
            Data).toNumericTable cast
        | .column_major =>
          (bind_columns Data table.row_count table.column_count 0
            (SOANumericTable.create table.data table.column_count
              table.row_count)).toNumericTable cast) ∧
    convert_feature_information_to_daal table.metadata
      (NumericTableDictionary.create table.column_count) = .ok self.dictionary := by
  unfold host_homogen_table_adapter.ctor at h
  by_cases h1 : stat0.ok = true
  · by_cases h2 : table.has_data = true
    · simp only [h1, h2, Bool.not_true, Bool.false_eq_true, if_false] at h
      split at h
      · cases h
      · rename_i d hd
        injection h with h
        injection h with hs hself
        subst hs; subst hself
        exact ⟨h2, rfl, h1, rfl, rfl, hd⟩
    · simp [h1, h2] at h
  · simp [h1] at h

theorem create_completed {α : Type} [Inhabited α]
    (status_to_exception : Status → Except dal_exception Unit)
    (cast : scalar_type → scalar_type → α → α)
    (Data : scalar_type) (table : homogen_table α) (stat : Status)
    (self : host_homogen_table_adapter α)
    (h : host_homogen_table_adapter.create status_to_exception cast Data table =
      .ok (.completed stat self)) :
    host_homogen_table_adapter.ctor cast Data table Status.OK = .ok (.completed stat self) := by
  unfold host_homogen_table_adapter.create at h
  simp only at h
  split at h
  · cases h
  · rename_i result hr
    split at h
    · cases h
    · injection h with h
      subst h
      exact hr

/-! ## Feature kinds -/

/-- C1, as the claim states it, fails on the code: the feature kind `ordinal`
is translated to the legacy kind `DAAL_ORDINAL`, not to `DAAL_CONTINUOUS`, both
by `get_daal_feature_type` and in the dictionary entry that
`convert_feature_information_to_daal` writes for an ordinal column. -/
theorem get_daal_feature_type_ordinal_not_continuous :
    get_daal_feature_type .ordinal = .ok .DAAL_ORDINAL ∧
    get_daal_feature_type .ordinal ≠ .ok .DAAL_CONTINUOUS ∧
    convert_feature_information_to_daal ⟨[.ordinal]⟩ (NumericTableDictionary.create 1) =
      .ok [⟨.DAAL_ORDINAL⟩] := by
  refine ⟨rfl, ?_, rfl⟩
  intro h
  cases h

/-- C1, amended: `get_daal_feature_type` translates the recognised feature kinds
to the legacy three-valued kind: nominal to categorical, ordinal to ordinal,
interval and ratio to continuous; and it returns a kind for these four kinds
only. -/
theorem get_daal_feature_type_recognised (t : feature_type) (k : FeatureType) :
    get_daal_feature_type t = .ok k ↔
      (t = .nominal ∧ k = .DAAL_CATEGORICAL) ∨ (t = .ordinal ∧ k = .DAAL_ORDINAL) ∨
      (t = .interval ∧ k = .DAAL_CONTINUOUS) ∨ (t = .ratio ∧ k = .DAAL_CONTINUOUS) := by
  cases t <;> cases k <;> simp [get_daal_feature_type]

/-! ## The status boundary -/

/-- C2: for every body, `convert_exception_to_status` yields a status: the body's
own status when it returns one, `ErrorMemoryAllocationFailed` when it raises
`bad_alloc`, `ErrorIncorrectDataRange` when it raises `out_of_range`, and
`UnknownError` when it raises anything else. Hence, for every adapter (whatever
its underlying table returns or raises), every request and every block scalar
kind, `getBlockOfRows` and `getBlockOfColumnValues` return a status:
`ErrorMethodNotImplemented` for a flag other than `readOnly`, and otherwise the
status the underlying table returned, or the status standing for the exception
it raised. -/
theorem convert_exception_to_status_boundary {α : Type}
    (body : Unit → Except dal_exception Status)
    (self : host_homogen_table_adapter α) (feature_idx vector_idx vector_num : Nat)
    (rwflag : ReadWriteMode) (BlockData : scalar_type) (block : BlockDescriptor α) :
    ((∀ s, body () = .ok s → convert_exception_to_status body = s) ∧
     (body () = .error .bad_alloc →
        convert_exception_to_status body = Status.ofError .ErrorMemoryAllocationFailed) ∧
     (body () = .error .out_of_range →
        convert_exception_to_status body = Status.ofError .ErrorIncorrectDataRange) ∧
     (∀ e, body () = .error e → e ≠ .bad_alloc → e ≠ .out_of_range →
        convert_exception_to_status body = Status.ofError .UnknownError)) ∧
    ((self.getBlockOfRows vector_idx vector_num rwflag BlockData block).status =
        if rwflag ≠ .readOnly then Status.ofError .ErrorMethodNotImplemented
        else
          match (self.base.getBlockOfRows vector_idx vector_num rwflag BlockData
            block).outcome with
          | .ok s => s
          | .error .bad_alloc => Status.ofError .ErrorMemoryAllocationFailed
          | .error .out_of_range => Status.ofError .ErrorIncorrectDataRange
          | .error _ => Status.ofError .UnknownError) ∧
    ((self.getBlockOfColumnValues feature_idx vector_idx vector_num rwflag BlockData
        block).status =
        if rwflag ≠ .readOnly then Status.ofError .ErrorMethodNotImplemented
        else
          match (self.base.getBlockOfColumnValues feature_idx vector_idx vector_num rwflag
            BlockData block).outcome with
          | .ok s => s
          | .error .bad_alloc => Status.ofError .ErrorMemoryAllocationFailed
          | .error .out_of_range => Status.ofError .ErrorIncorrectDataRange
          | .error _ => Status.ofError .UnknownError) := by
  refine ⟨⟨?_, ?_, ?_, ?_⟩, ?_, ?_⟩
  · intro s h
    simp [convert_exception_to_status, h]
  · intro h
    simp [convert_exception_to_status, h]
  · intro h
    simp [convert_exception_to_status, h]
  · intro e h h1 h2
    cases e with
    | bad_alloc => exact absurd rfl h1
    | out_of_range => exact absurd rfl h2
    | internal_error => simp [convert_exception_to_status, h]
    | other tag => simp [convert_exception_to_status, h]
  · by_cases hrw : rwflag = .readOnly
    · simp [host_homogen_table_adapter.getBlockOfRows,
        host_homogen_table_adapter.read_rows_impl, hrw, convert_exception_to_status]
    · simp [host_homogen_table_adapter.getBlockOfRows,
        host_homogen_table_adapter.read_rows_impl, hrw, convert_exception_to_status]
  · by_cases hrw : rwflag = .readOnly
    · simp [host_homogen_table_adapter.getBlockOfColumnValues,
        host_homogen_table_adapter.read_column_values_impl, hrw, convert_exception_to_status]
    · simp [host_homogen_table_adapter.getBlockOfColumnValues,
        host_homogen_table_adapter.read_column_values_impl, hrw, convert_exception_to_status]

/-- C2 at concrete inputs: a body raising an exception of no caught class gives
`UnknownError`, and a read-only row request on an adapter whose underlying table
raises `bad_alloc` returns `ErrorMemoryAllocationFailed`. -/
theorem convert_exception_to_status_boundary_witness :
    convert_exception_to_status (fun _ => .error (.other 3)) = Status.ofError .UnknownError ∧
    ((raising_adapter Nat .bad_alloc).getBlockOfRows 0 1 .readOnly .double ⟨.null, 0, 0⟩).status
      = Status.ofError .ErrorMemoryAllocationFailed :=
  ⟨(convert_exception_to_status_boundary (fun _ => .error (.other 3))
      (raising_adapter Nat .bad_alloc) 0 0 1 .readOnly .double ⟨.null, 0, 0⟩).1.2.2.2
      (.other 3) rfl (by decide) (by decide),
   (convert_exception_to_status_boundary (fun _ => .error (.other 3))
      (raising_adapter Nat .bad_alloc) 0 0 1 .readOnly .double ⟨.null, 0, 0⟩).2.1⟩

/-- C3: for every adapter, every index and count, every block scalar kind and
every block, a `getBlockOfRows` or `getBlockOfColumnValues` request whose flag is
not `readOnly` returns `ErrorMethodNotImplemented`, hands the block back as it
was and leaves the adapter as it was. As this holds whatever the underlying
table is (also one that raises on every call, or that rewrites the block), its
block reads are not reached. -/
theorem not_read_only_is_not_implemented {α : Type} (self : host_homogen_table_adapter α)
    (feature_idx vector_idx vector_num : Nat) (rwflag : ReadWriteMode)
    (BlockData : scalar_type) (block : BlockDescriptor α) (h : rwflag ≠ .readOnly) :
    self.getBlockOfRows vector_idx vector_num rwflag BlockData block =
      ⟨Status.ofError .ErrorMethodNotImplemented, block, self⟩ ∧
    self.getBlockOfColumnValues feature_idx vector_idx vector_num rwflag BlockData block =
      ⟨Status.ofError .ErrorMethodNotImplemented, block, self⟩ ∧
    (∀ base : NumericTable α,
      ({ self with base := base }.getBlockOfRows vector_idx vector_num rwflag BlockData
          block).status = Status.ofError .ErrorMethodNotImplemented ∧
      ({ self with base := base }.getBlockOfColumnValues feature_idx vector_idx vector_num
          rwflag BlockData block).status = Status.ofError .ErrorMethodNotImplemented) := by
  refine ⟨?_, ?_, ?_⟩
  · simp [host_homogen_table_adapter.getBlockOfRows, host_homogen_table_adapter.read_rows_impl,
      h, convert_exception_to_status]
  · simp [host_homogen_table_adapter.getBlockOfColumnValues,
      host_homogen_table_adapter.read_column_values_impl, h, convert_exception_to_status]
  · intro base
    simp [host_homogen_table_adapter.getBlockOfRows, host_homogen_table_adapter.read_rows_impl,
      host_homogen_table_adapter.getBlockOfColumnValues,
      host_homogen_table_adapter.read_column_values_impl, h, convert_exception_to_status]

/-- C3 at a concrete input: a `readWrite` row request on an adapter whose
underlying table would raise `bad_alloc` returns `ErrorMethodNotImplemented`. -/
theorem not_read_only_is_not_implemented_witness :
    ReadWriteMode.readWrite ≠ .readOnly ∧
    ((raising_adapter Nat .bad_alloc).getBlockOfRows 0 1 .readWrite .float
        ⟨.null, 0, 0⟩).status = Status.ofError .ErrorMethodNotImplemented :=
  ⟨by decide,
   congrArg call_result.status
    (not_read_only_is_not_implemented (raising_adapter Nat .bad_alloc) 0 0 1 .readWrite .float
      ⟨.null, 0, 0⟩ (by decide)).1⟩

/-- C4: `assign` for `float`, `double` and `int`, `allocateDataMemoryImpl`,
`setNumberOfColumnsImpl`, `serializeImpl` and `deserializeImpl` return
`ErrorMethodNotImplemented` for every argument and every adapter state. -/
theorem stub_operations_not_implemented {α Archive : Type}
    (self : host_homogen_table_adapter α) (value : α) (memType nColumns : Nat)
    (arch : Archive) :
    (self.assign .float value).1 = Status.ofError .ErrorMethodNotImplemented ∧
    (self.assign .double value).1 = Status.ofError .ErrorMethodNotImplemented ∧
    (self.assign .int value).1 = Status.ofError .ErrorMethodNotImplemented ∧
    (self.allocateDataMemoryImpl memType).1 = Status.ofError .ErrorMethodNotImplemented ∧
    (self.setNumberOfColumnsImpl nColumns).1 = Status.ofError .ErrorMethodNotImplemented ∧
    (self.serializeImpl arch).1 = Status.ofError .ErrorMethodNotImplemented ∧
    (self.deserializeImpl arch).1 = Status.ofError .ErrorMethodNotImplemented :=
  ⟨rfl, rfl, rfl, rfl, rfl, rfl, rfl⟩

/-! ## Construction -/

/-- C7: for every table handle whose `has_data()` is false, the constructor run
on an OK status adds `ErrorIncorrectParameter` to it and returns early, leaving
the dictionary as the base class set it up (no feature metadata is translated,
and none of it can raise); `create` then hands that status to
`status_to_exception`, raises what that raises, and in no case returns a
constructed adapter. For every table handle, the constructor run on a status
that is not OK returns early with that very status. The first definition of
the constructor behaves the same on the status its base-class initialiser
leaves. -/
theorem no_data_fails_at_construction {α : Type} [Inhabited α]
    (status_to_exception : Status → Except dal_exception Unit)
    (cast : scalar_type → scalar_type → α → α)
    (Data : scalar_type) (base_init : Status → Status) (table : homogen_table α)
    (stat : Status) :
    (stat.ok = false →
      host_homogen_table_adapter.ctor cast Data table stat =
        .ok (.returned_early stat (NumericTableDictionary.create table.column_count))) ∧
    (table.has_data = false → stat.ok = true →
      host_homogen_table_adapter.ctor cast Data table stat =
        .ok (.returned_early (stat.add .ErrorIncorrectParameter)
          (NumericTableDictionary.create table.column_count))) ∧
    (table.has_data = false →
      ∀ e, status_to_exception (Status.OK.add .ErrorIncorrectParameter) = .error e →
        host_homogen_table_adapter.create status_to_exception cast Data table = .error e) ∧
    (table.has_data = false →
      ∀ st self, host_homogen_table_adapter.create status_to_exception cast Data table ≠
        .ok (.completed st self)) ∧
    ((base_init stat).ok = false →
      host_homogen_table_adapter.ctor_first base_init table stat =
        .ok (base_init stat, NumericTableDictionary.create table.column_count)) ∧
    (table.has_data = false → (base_init stat).ok = true →
      host_homogen_table_adapter.ctor_first base_init table stat =
        .ok ((base_init stat).add .ErrorIncorrectParameter,
          NumericTableDictionary.create table.column_count)) := by
  have hok : Status.OK.ok = true := rfl
  refine ⟨?_, ?_, ?_, ?_, ?_, ?_⟩
  · intro h
    simp [host_homogen_table_adapter.ctor, h]
  · intro hd h
    simp [host_homogen_table_adapter.ctor, h, hd]
  · intro hd e he
    simp [host_homogen_table_adapter.create, host_homogen_table_adapter.ctor, hok, hd,
      construction.stat, he]
  · intro hd st self hc
    have h2 := ctor_completed cast Data table Status.OK st self
      (create_completed status_to_exception cast Data table st self hc)
    rw [hd] at h2
    exact absurd h2.1 (by decide)
  · intro h
    simp [host_homogen_table_adapter.ctor_first, h]
  · intro hd h
    simp [host_homogen_table_adapter.ctor_first, h, hd]

/-- C7 at a concrete input: for a table handle without data whose metadata even
holds an unrecognised kind, the constructor returns early with
`ErrorIncorrectParameter` and an untouched dictionary, and `create` raises. -/
theorem no_data_fails_at_construction_witness :
    sample_no_data.has_data = false ∧ Status.OK.ok = true ∧
    host_homogen_table_adapter.ctor sample_cast .float sample_no_data Status.OK =
      .ok (.returned_early (Status.ofError .ErrorIncorrectParameter) []) ∧
    host_homogen_table_adapter.create sample_status_to_exception sample_cast .float
      sample_no_data = .error (.other 0) :=
  ⟨rfl, rfl,
   (no_data_fails_at_construction sample_status_to_exception sample_cast .float id
      sample_no_data Status.OK).2.1 rfl rfl,
   (no_data_fails_at_construction sample_status_to_exception sample_cast .float id
      sample_no_data Status.OK).2.2.1 rfl (.other 0) rfl⟩

/-- C10: for every feature kind value that is none of nominal, ordinal, interval
and ratio, `get_daal_feature_type` raises `internal_error`; so for every table
handle whose metadata holds such a kind in some column,
`convert_feature_information_to_daal` raises it whatever the dictionary, the
constructor raises it once its guard is passed, `create` raises it when the
table has data, and `create` in no case returns a constructed adapter. -/
theorem unrecognised_feature_kind_is_fatal {α : Type} [Inhabited α]
    (status_to_exception : Status → Except dal_exception Unit)
    (cast : scalar_type → scalar_type → α → α)
    (Data : scalar_type) (table : homogen_table α) (stat : Status)
    (dst : NumericTableDictionary) (raw : Nat)
    (h : feature_type.unrecognised raw ∈ table.metadata.feature_types) :
    (∀ value : Nat, get_daal_feature_type (.unrecognised value) = .error .internal_error) ∧
    convert_feature_information_to_daal table.metadata dst = .error .internal_error ∧
    (stat.ok = true → table.has_data = true →
      host_homogen_table_adapter.ctor cast Data table stat = .error .internal_error) ∧
    (table.has_data = true →
      host_homogen_table_adapter.create status_to_exception cast Data table =
        .error .internal_error) ∧
    (∀ st self, host_homogen_table_adapter.create status_to_exception cast Data table ≠
        .ok (.completed st self)) := by
  have hconv : ∀ d, convert_feature_information_to_daal table.metadata d
      = .error .internal_error := fun d => loop_unrecognised _ 0 d raw h
  have hctor : ∀ st : Status, st.ok = true → table.has_data = true →
      host_homogen_table_adapter.ctor cast Data table st = .error .internal_error := by
    intro st hs hd
    simp [host_homogen_table_adapter.ctor, hs, hd, hconv]
  have hcreate : table.has_data = true →
      host_homogen_table_adapter.create status_to_exception cast Data table
        = .error .internal_error := by
    intro hd
    simp [host_homogen_table_adapter.create, hctor Status.OK rfl hd]
  refine ⟨fun _ => rfl, hconv dst, hctor stat, hcreate, ?_⟩
  intro st self hc
  have h2 := ctor_completed cast Data table Status.OK st self
    (create_completed status_to_exception cast Data table st self hc)
  rw [hcreate h2.1] at hc
  cases hc

/-- C10 at a concrete input: a 4 by 2 table whose second column has an
unrecognised kind; `create` raises `internal_error`. -/
theorem unrecognised_feature_kind_is_fatal_witness :
    feature_type.unrecognised 7 ∈ sample_unrecognised.metadata.feature_types ∧
    host_homogen_table_adapter.create sample_status_to_exception sample_cast .float
      sample_unrecognised = .error .internal_error :=
  ⟨by decide,
   (unrecognised_feature_kind_is_fatal sample_status_to_exception sample_cast .float
      sample_unrecognised Status.OK [] 7 (by decide)).2.2.2.1 rfl⟩

theorem created_base {α : Type} [Inhabited α]
    (status_to_exception : Status → Except dal_exception Unit)
    (cast : scalar_type → scalar_type → α → α)
    (Data : scalar_type) (table : homogen_table α) (stat : Status)
    (self : host_homogen_table_adapter α)
    (h : host_homogen_table_adapter.create status_to_exception cast Data table =
      .ok (.completed stat self)) :
    (table.layout = .row_major →
      self.base = (HomogenNumericTable.create table.data 0 table.column_count table.row_count
        Data).toNumericTable cast) ∧
    (table.layout = .column_major →
      self.base = (bind_columns Data table.row_count table.column_count 0
        (SOANumericTable.create table.data table.column_count
          table.row_count)).toNumericTable cast) := by
  obtain ⟨_, _, _, _, hb, _⟩ := ctor_completed cast Data table Status.OK stat self
    (create_completed status_to_exception cast Data table stat self h)
  constructor
  · intro hl; rw [hb, hl]
  · intro hl; rw [hb, hl]

theorem rows_in_range_false (R idx num : Nat) (h : R < idx + num) :
    rows_in_range R idx num = false := by
  simp [rows_in_range]; omega

theorem rows_in_range_full (R : Nat) (h : 0 < R) : rows_in_range R 0 R = true := by
  simp [rows_in_range, h]

theorem created_rows_out_of_range {α : Type} [Inhabited α]
    (status_to_exception : Status → Except dal_exception Unit)
    (cast : scalar_type → scalar_type → α → α)
    (Data : scalar_type) (table : homogen_table α) (stat : Status)
    (self : host_homogen_table_adapter α)
    (h : host_homogen_table_adapter.create status_to_exception cast Data table =
      .ok (.completed stat self))
    (idx num : Nat) (BlockData : scalar_type) (block : BlockDescriptor α)
    (hrange : table.row_count < idx + num) :
    self.getBlockOfRows idx num .readOnly BlockData block = ⟨range_error, block, self⟩ := by
  obtain ⟨hrow, hcol⟩ := created_base status_to_exception cast Data table stat self h
  cases hl : table.layout with
  | row_major =>
    simp [host_homogen_table_adapter.getBlockOfRows, host_homogen_table_adapter.read_rows_impl,
      hrow hl, HomogenNumericTable.toNumericTable, HomogenNumericTable.getBlockOfRows,
      HomogenNumericTable.create, rows_in_range_false _ _ _ hrange, convert_exception_to_status]
  | column_major =>
    have hf := bind_columns_frame Data table.row_count table.column_count 0
      (SOANumericTable.create table.data table.column_count table.row_count)
    have hn : (bind_columns Data table.row_count table.column_count 0
      (SOANumericTable.create table.data table.column_count table.row_count)).nRows
        = table.row_count := by rw [hf.2.2.1]; rfl
    simp [host_homogen_table_adapter.getBlockOfRows, host_homogen_table_adapter.read_rows_impl,
      hcol hl, SOANumericTable.toNumericTable, SOANumericTable.getBlockOfRows, hn,
      rows_in_range_false _ _ _ hrange, convert_exception_to_status]

theorem created_column_out_of_range {α : Type} [Inhabited α]
    (status_to_exception : Status → Except dal_exception Unit)
    (cast : scalar_type → scalar_type → α → α)
    (Data : scalar_type) (table : homogen_table α) (stat : Status)
    (self : host_homogen_table_adapter α)
    (h : host_homogen_table_adapter.create status_to_exception cast Data table =
      .ok (.completed stat self))
    (feature_idx idx num : Nat) (BlockData : scalar_type) (block : BlockDescriptor α)
    (hrange : table.column_count ≤ feature_idx) :
    self.getBlockOfColumnValues feature_idx idx num .readOnly BlockData block =
      ⟨range_error, block, self⟩ := by
  obtain ⟨hrow, hcol⟩ := created_base status_to_exception cast Data table stat self h
  have hc : column_in_range table.column_count feature_idx = false := by
    simp [column_in_range]; omega
  cases hl : table.layout with
  | row_major =>
    simp [host_homogen_table_adapter.getBlockOfColumnValues,
      host_homogen_table_adapter.read_column_values_impl,
      hrow hl, HomogenNumericTable.toNumericTable, HomogenNumericTable.getBlockOfColumnValues,
      HomogenNumericTable.create, hc, convert_exception_to_status]
  | column_major =>
    have hf := bind_columns_frame Data table.row_count table.column_count 0
      (SOANumericTable.create table.data table.column_count table.row_count)
    have hn : (bind_columns Data table.row_count table.column_count 0
      (SOANumericTable.create table.data table.column_count table.row_count)).nColumns
        = table.column_count := by rw [hf.2.1]; rfl
    simp [host_homogen_table_adapter.getBlockOfColumnValues,
      host_homogen_table_adapter.read_column_values_impl,
      hcol hl, SOANumericTable.toNumericTable, SOANumericTable.getBlockOfColumnValues, hn,
      hc, convert_exception_to_status]


/-! ## Range errors -/

/-- C5: for every adapter `create` returns for a table handle with `R` rows,
every block scalar kind and every read-only row request with
`row_begin + row_count > R`, `getBlockOfRows` returns the range-error status and
hands the block back as it was, pointing nowhere new; the same holds whatever
the source buffer holds, so the buffer is not read. -/
theorem row_request_out_of_range {α : Type} [Inhabited α]
    (status_to_exception : Status → Except dal_exception Unit)
    (cast : scalar_type → scalar_type → α → α)
    (Data : scalar_type) (table : homogen_table α) (stat : Status)
    (self : host_homogen_table_adapter α)
    (h : host_homogen_table_adapter.create status_to_exception cast Data table =
      .ok (.completed stat self))
    (idx num : Nat) (BlockData : scalar_type) (block : BlockDescriptor α)
    (hrange : table.row_count < idx + num) :
    self.getBlockOfRows idx num .readOnly BlockData block = ⟨range_error, block, self⟩ ∧
    (∀ (buffer : List α) (stat2 : Status) (self2 : host_homogen_table_adapter α),
      host_homogen_table_adapter.create status_to_exception cast Data { table with data := buffer } =
        .ok (.completed stat2 self2) →
      (self2.getBlockOfRows idx num .readOnly BlockData block).status = range_error ∧
      (self2.getBlockOfRows idx num .readOnly BlockData block).block = block) := by
  have h1 := created_rows_out_of_range status_to_exception cast Data table stat self h idx num BlockData block
    hrange
  refine ⟨h1, ?_⟩
  intro buffer stat2 self2 h2
  have h3 := created_rows_out_of_range status_to_exception cast Data
    { table with data := buffer } stat2 self2 h2 idx num BlockData block hrange
  rw [h3]
  exact ⟨rfl, rfl⟩

/-- C6: for every adapter `create` returns for a table handle with `C` columns,
every block scalar kind and every read-only single-column request with
`column_index ≥ C`, `getBlockOfColumnValues` returns the range-error status
(and hands the block back as it was). -/
theorem column_request_out_of_range {α : Type} [Inhabited α]
    (status_to_exception : Status → Except dal_exception Unit)
    (cast : scalar_type → scalar_type → α → α)
    (Data : scalar_type) (table : homogen_table α) (stat : Status)
    (self : host_homogen_table_adapter α)
    (h : host_homogen_table_adapter.create status_to_exception cast Data table =
      .ok (.completed stat self))
    (feature_idx idx num : Nat) (BlockData : scalar_type) (block : BlockDescriptor α)
    (hrange : table.column_count ≤ feature_idx) :
    self.getBlockOfColumnValues feature_idx idx num .readOnly BlockData block =
      ⟨range_error, block, self⟩ :=
  created_column_out_of_range status_to_exception cast Data table stat self h feature_idx idx num BlockData
    block hrange

/-! ## Layouts -/

/-- C8: for every adapter `create` returns for a column-major table handle with
`R > 0` rows and `C` columns over a buffer of at least `R * C` elements: the
constructor has bound column `c` to the source buffer at offset `c * R`; a
read-only read of column `c` over all rows at the native scalar kind succeeds
with a pointer into the source at offset `c * R` (no temporary buffer) and
yields the `R` buffer elements from there; and a read-only block of all rows at
the native kind succeeds with `R * C` values in row-major order, the value of
row `r`, column `c` being buffer element `c * R + r`. -/
theorem column_major_view {α : Type} [Inhabited α]
    (status_to_exception : Status → Except dal_exception Unit)
    (cast : scalar_type → scalar_type → α → α)
    (Data : scalar_type) (table : homogen_table α) (stat : Status)
    (self : host_homogen_table_adapter α)
    (h : host_homogen_table_adapter.create status_to_exception cast Data table =
      .ok (.completed stat self))
    (hl : table.layout = .column_major) (hR : 0 < table.row_count)
    (hlen : table.row_count * table.column_count ≤ table.data.length)
    (block : BlockDescriptor α) :
    (bind_columns Data table.row_count table.column_count 0
        (SOANumericTable.create table.data table.column_count table.row_count)).arrays =
      (List.range table.column_count).map (fun c => some ⟨c * table.row_count, Data⟩) ∧
    self.base = (bind_columns Data table.row_count table.column_count 0
        (SOANumericTable.create table.data table.column_count
          table.row_count)).toNumericTable cast ∧
    (∀ c, c < table.column_count →
      (self.getBlockOfColumnValues c 0 table.row_count .readOnly Data block).status
        = Status.OK ∧
      (self.getBlockOfColumnValues c 0 table.row_count .readOnly Data block).block.ptr
        = .source (c * table.row_count) ∧
      (self.getBlockOfColumnValues c 0 table.row_count .readOnly Data
        block).block.owns_temporary_buffer = false ∧
      (self.getBlockOfColumnValues c 0 table.row_count .readOnly Data block).block.values
        table.data = (table.data.drop (c * table.row_count)).take table.row_count) ∧
    (self.getBlockOfRows 0 table.row_count .readOnly Data block).status = Status.OK ∧
    ((self.getBlockOfRows 0 table.row_count .readOnly Data block).block.values
      table.data).length = table.row_count * table.column_count ∧
    (∀ r c, r < table.row_count → c < table.column_count →
      ((self.getBlockOfRows 0 table.row_count .readOnly Data block).block.values
        table.data)[r * table.column_count + c]? = table.data[c * table.row_count + r]?) := by
  have hb := (created_base status_to_exception cast Data table stat self h).2 hl
  have harr := bind_columns_arrays Data table.data table.column_count table.row_count
  have hf := bind_columns_frame Data table.row_count table.column_count 0
    (SOANumericTable.create table.data table.column_count table.row_count)
  have hnr : (bind_columns Data table.row_count table.column_count 0
      (SOANumericTable.create table.data table.column_count table.row_count)).nRows
        = table.row_count := by rw [hf.2.2.1]; rfl
  have hnc : (bind_columns Data table.row_count table.column_count 0
      (SOANumericTable.create table.data table.column_count table.row_count)).nColumns
        = table.column_count := by rw [hf.2.1]; rfl
  have hmem : (bind_columns Data table.row_count table.column_count 0
      (SOANumericTable.create table.data table.column_count table.row_count)).memory
        = table.data := by rw [hf.1]; rfl
  have hfull := rows_in_range_full table.row_count hR
  have hbound : bound_columns (bind_columns Data table.row_count table.column_count 0
      (SOANumericTable.create table.data table.column_count table.row_count)).arrays =
      some ((List.range table.column_count).map
        (fun c => (⟨c * table.row_count, Data⟩ : column_array))) := by
    rw [harr, ← bound_columns_map_some, List.map_map]
    rfl
  have hrows : (self.getBlockOfRows 0 table.row_count .readOnly Data block) =
      ⟨Status.OK, ⟨.temporary (gather_rows
          (fun r => (List.range table.column_count).map
            (fun c => table.data.getD (c * table.row_count + r) default))
          table.row_count 0), table.column_count, table.row_count⟩, self⟩ := by
    simp [host_homogen_table_adapter.getBlockOfRows, host_homogen_table_adapter.read_rows_impl,
      hb, SOANumericTable.toNumericTable, SOANumericTable.getBlockOfRows, hnr, hnc, hmem,
      hfull, hbound, convert_exception_to_status, convert_value, Function.comp_def]
  have hrowlen : ∀ r, ((List.range table.column_count).map
      (fun c => table.data.getD (c * table.row_count + r) default)).length
        = table.column_count := by
    intro r; simp
  refine ⟨harr, hb, ?_, ?_, ?_, ?_⟩
  · intro c hc
    have hcr : column_in_range table.column_count c = true := by
      simp [column_in_range, hc]
    have hget : (bind_columns Data table.row_count table.column_count 0
        (SOANumericTable.create table.data table.column_count table.row_count)).arrays[c]?
          = some (some ⟨c * table.row_count, Data⟩) := by
      rw [harr]
      simp [List.getElem?_range, hc]
    have hcol : (self.getBlockOfColumnValues c 0 table.row_count .readOnly Data block) =
        ⟨Status.OK, ⟨.source (c * table.row_count), 1, table.row_count⟩, self⟩ := by
      simp [host_homogen_table_adapter.getBlockOfColumnValues,
        host_homogen_table_adapter.read_column_values_impl,
        hb, SOANumericTable.toNumericTable, SOANumericTable.getBlockOfColumnValues, hnr, hnc,
        hfull, hcr, hget, convert_exception_to_status]
    rw [hcol]
    simp [BlockDescriptor.owns_temporary_buffer, BlockDescriptor.values]
  · rw [hrows]
  · rw [hrows]
    simp only [BlockDescriptor.values]
    rw [gather_rows_length _ table.column_count hrowlen]
  · intro r c hr hc
    rw [hrows]
    simp only [BlockDescriptor.values]
    rw [gather_rows_getElem? _ table.column_count hrowlen _ _ r c hr hc]
    have hlt : c * table.row_count + r < table.data.length := by
      have : (c + 1) * table.row_count ≤ table.column_count * table.row_count :=
        Nat.mul_le_mul_right _ hc
      have h2 : (c + 1) * table.row_count = c * table.row_count + table.row_count := by ring
      have h3 : table.column_count * table.row_count
          = table.row_count * table.column_count := by ring
      omega
    simp [List.getElem?_range, hc, List.getD_eq_getElem?_getD, List.getElem?_eq_getElem hlt]

/-- C8 at the claim's input: storage `[1,3,5,7,2,4,6,8]` with `R = 4`, `C = 2`
gives column 1 at offset 4 with values `2,4,6,8` and the row block
`1,2,3,4,5,6,7,8`. -/
theorem column_major_view_witness :
    host_homogen_table_adapter.create sample_status_to_exception sample_cast .float sample_column_major =
      .ok (.completed Status.OK sample_column_major_adapter) ∧
    (sample_column_major_adapter.getBlockOfColumnValues 1 0 4 .readOnly .float
      ⟨.null, 0, 0⟩).block.ptr = .source 4 ∧
    (sample_column_major_adapter.getBlockOfColumnValues 1 0 4 .readOnly .float
      ⟨.null, 0, 0⟩).block.values sample_column_major.data = [2, 4, 6, 8] ∧
    (sample_column_major_adapter.getBlockOfRows 0 4 .readOnly .float
      ⟨.null, 0, 0⟩).block.values sample_column_major.data = [1, 2, 3, 4, 5, 6, 7, 8] :=
  ⟨rfl,
   ((column_major_view sample_status_to_exception sample_cast .float sample_column_major Status.OK
      sample_column_major_adapter rfl rfl (by decide) (by decide) ⟨.null, 0, 0⟩).2.2.1 1
      (by decide)).2.1,
   ((column_major_view sample_status_to_exception sample_cast .float sample_column_major Status.OK
      sample_column_major_adapter rfl rfl (by decide) (by decide) ⟨.null, 0, 0⟩).2.2.1 1
      (by decide)).2.2.2,
   by decide⟩

/-- C9: for every adapter `create` returns for a row-major table handle with
`R > 0` rows and `C` columns, a read-only request for all `R` rows at the
table's native scalar kind succeeds with a block that points at the base of
the source buffer (offset 0), owns no temporary buffer, has `R` rows of `C`
columns, and whose values are the first `R * C` elements of the source buffer:
the whole buffer when it holds exactly `R * C` elements. -/
theorem row_major_zero_copy {α : Type} [Inhabited α]
    (status_to_exception : Status → Except dal_exception Unit)
    (cast : scalar_type → scalar_type → α → α)
    (Data : scalar_type) (table : homogen_table α) (stat : Status)
    (self : host_homogen_table_adapter α)
    (h : host_homogen_table_adapter.create status_to_exception cast Data table =
      .ok (.completed stat self))
    (hl : table.layout = .row_major) (hR : 0 < table.row_count)
    (block : BlockDescriptor α) :
    (self.getBlockOfRows 0 table.row_count .readOnly Data block).status = Status.OK ∧
    (self.getBlockOfRows 0 table.row_count .readOnly Data block).block.ptr = .source 0 ∧
    (self.getBlockOfRows 0 table.row_count .readOnly Data block).block.owns_temporary_buffer
      = false ∧
    (self.getBlockOfRows 0 table.row_count .readOnly Data block).block.nrows
      = table.row_count ∧
    (self.getBlockOfRows 0 table.row_count .readOnly Data block).block.ncols
      = table.column_count ∧
    (self.getBlockOfRows 0 table.row_count .readOnly Data block).block.values table.data
      = table.data.take (table.row_count * table.column_count) ∧
    (table.data.length = table.row_count * table.column_count →
      (self.getBlockOfRows 0 table.row_count .readOnly Data block).block.values table.data
        = table.data) := by
  have hb := (created_base status_to_exception cast Data table stat self h).1 hl
  have hfull := rows_in_range_full table.row_count hR
  have hrows : (self.getBlockOfRows 0 table.row_count .readOnly Data block) =
      ⟨Status.OK, ⟨.source 0, table.column_count, table.row_count⟩, self⟩ := by
    simp [host_homogen_table_adapter.getBlockOfRows, host_homogen_table_adapter.read_rows_impl,
      hb, HomogenNumericTable.toNumericTable, HomogenNumericTable.getBlockOfRows,
      HomogenNumericTable.create, hfull, convert_exception_to_status]
  rw [hrows]
  refine ⟨rfl, rfl, rfl, rfl, rfl, ?_, ?_⟩
  · simp [BlockDescriptor.values]
  · intro hlen
    simp [BlockDescriptor.values, ← hlen]

/-- C9 at the claim's input: the 4 by 2 row-major table `[[1,2],[3,4],[5,6],[7,8]]`
read whole gives a block at offset 0 of the source whose values are the input. -/
theorem row_major_zero_copy_witness :
    host_homogen_table_adapter.create sample_status_to_exception sample_cast .float sample_row_major =
      .ok (.completed Status.OK sample_row_major_adapter) ∧
    (sample_row_major_adapter.getBlockOfRows 0 4 .readOnly .float ⟨.null, 0, 0⟩).block.ptr
      = .source 0 ∧
    (sample_row_major_adapter.getBlockOfRows 0 4 .readOnly .float
      ⟨.null, 0, 0⟩).block.owns_temporary_buffer = false ∧
    (sample_row_major_adapter.getBlockOfRows 0 4 .readOnly .float ⟨.null, 0, 0⟩).block.values
      sample_row_major.data = [1, 2, 3, 4, 5, 6, 7, 8] :=
  ⟨rfl,
   (row_major_zero_copy sample_status_to_exception sample_cast .float sample_row_major Status.OK
      sample_row_major_adapter rfl rfl (by decide) ⟨.null, 0, 0⟩).2.1,
   (row_major_zero_copy sample_status_to_exception sample_cast .float sample_row_major Status.OK
      sample_row_major_adapter rfl rfl (by decide) ⟨.null, 0, 0⟩).2.2.1,
   (row_major_zero_copy sample_status_to_exception sample_cast .float sample_row_major Status.OK
      sample_row_major_adapter rfl rfl (by decide) ⟨.null, 0, 0⟩).2.2.2.2.2.2 rfl⟩

/-- C5 at a concrete input: rows 3 and 4 of a table handle with 4 rows. -/
theorem row_request_out_of_range_witness :
    host_homogen_table_adapter.create sample_status_to_exception sample_cast .float sample_row_major =
      .ok (.completed Status.OK sample_row_major_adapter) ∧
    sample_row_major.row_count < 3 + 2 ∧
    (sample_row_major_adapter.getBlockOfRows 3 2 .readOnly .double ⟨.null, 0, 0⟩).status
      = Status.ofError .ErrorIncorrectDataRange :=
  ⟨rfl, by decide,
   congrArg call_result.status
    (row_request_out_of_range sample_status_to_exception sample_cast .float sample_row_major Status.OK
      sample_row_major_adapter rfl 3 2 .double ⟨.null, 0, 0⟩ (by decide)).1⟩

/-- C6 at a concrete input: column 2 of a column-major table handle with 2
columns. -/
theorem column_request_out_of_range_witness :
    host_homogen_table_adapter.create sample_status_to_exception sample_cast .float sample_column_major =
      .ok (.completed Status.OK sample_column_major_adapter) ∧
    sample_column_major.column_count ≤ 2 ∧
    (sample_column_major_adapter.getBlockOfColumnValues 2 0 4 .readOnly .float
      ⟨.null, 0, 0⟩).status = Status.ofError .ErrorIncorrectDataRange :=
  ⟨rfl, by decide,
   congrArg call_result.status
    (column_request_out_of_range sample_status_to_exception sample_cast .float sample_column_major Status.OK
      sample_column_major_adapter rfl 2 0 4 .float ⟨.null, 0, 0⟩ (by decide))⟩

/-! ## Range predicates -/

/-- C12: for the stored table handle with `R` rows and `C` columns, the two range
predicates accept a request record exactly when the Block Descriptor invariant
holds: `check_row_indexes_in_range` returns true iff `row_begin < R` and
`row_end ≤ R`, and `check_column_index_in_range` returns true iff a single
column is requested and `0 ≤ column_index < C`. -/
theorem range_predicates_characterised {α : Type} (self : host_homogen_table_adapter α)
    (info : block_info) :
    (self.check_row_indexes_in_range info = true ↔
      info.row_begin_index < self.original_table_.row_count ∧
      info.row_end_index ≤ self.original_table_.row_count) ∧
    (self.check_column_index_in_range info = true ↔
      info.single_column_requested = true ∧ 0 ≤ info.column_index ∧
      info.column_index < self.original_table_.column_count) := by
  refine ⟨?_, ?_⟩
  · simp [host_homogen_table_adapter.check_row_indexes_in_range]
  · simp [host_homogen_table_adapter.check_column_index_in_range]

/-! ## Release and frame -/

theorem range_error_ne_OK : range_error ≠ Status.OK := by decide

theorem unknown_error_ne_OK : Status.ofError .UnknownError ≠ Status.OK := by decide

theorem homogen_rows_block_independent {α : Type} (cast : scalar_type → scalar_type → α → α)
    (t : HomogenNumericTable α) (idx num : Nat) (rw : ReadWriteMode) (ty : scalar_type)
    (b1 b2 : BlockDescriptor α) :
    (HomogenNumericTable.getBlockOfRows cast t idx num rw ty b1).outcome =
      (HomogenNumericTable.getBlockOfRows cast t idx num rw ty b2).outcome ∧
    ((HomogenNumericTable.getBlockOfRows cast t idx num rw ty b1).outcome = .ok Status.OK →
      (HomogenNumericTable.getBlockOfRows cast t idx num rw ty b1).block =
        (HomogenNumericTable.getBlockOfRows cast t idx num rw ty b2).block) := by
  unfold HomogenNumericTable.getBlockOfRows
  by_cases h1 : rows_in_range t.nRows idx num = true
  · by_cases h2 : ty = t.Data
    · simp [h1, h2]
    · simp [h1, h2]
  · simp only [h1]
    refine ⟨rfl, ?_⟩
    intro h
    injection h with h
    exact absurd h range_error_ne_OK

theorem homogen_column_block_independent {α : Type} [Inhabited α]
    (cast : scalar_type → scalar_type → α → α)
    (t : HomogenNumericTable α) (c idx num : Nat) (rw : ReadWriteMode) (ty : scalar_type)
    (b1 b2 : BlockDescriptor α) :
    (HomogenNumericTable.getBlockOfColumnValues cast t c idx num rw ty b1).outcome =
      (HomogenNumericTable.getBlockOfColumnValues cast t c idx num rw ty b2).outcome ∧
    ((HomogenNumericTable.getBlockOfColumnValues cast t c idx num rw ty b1).outcome
        = .ok Status.OK →
      (HomogenNumericTable.getBlockOfColumnValues cast t c idx num rw ty b1).block =
        (HomogenNumericTable.getBlockOfColumnValues cast t c idx num rw ty b2).block) := by
  unfold HomogenNumericTable.getBlockOfColumnValues
  by_cases h1 : (column_in_range t.nColumns c && rows_in_range t.nRows idx num) = true
  · simp only [h1]
    exact ⟨rfl, fun _ => rfl⟩
  · simp only [h1]
    refine ⟨rfl, ?_⟩
    intro h
    injection h with h
    exact absurd h range_error_ne_OK

theorem soa_rows_block_independent {α : Type} [Inhabited α]
    (cast : scalar_type → scalar_type → α → α)
    (t : SOANumericTable α) (idx num : Nat) (rw : ReadWriteMode) (ty : scalar_type)
    (b1 b2 : BlockDescriptor α) :
    (SOANumericTable.getBlockOfRows cast t idx num rw ty b1).outcome =
      (SOANumericTable.getBlockOfRows cast t idx num rw ty b2).outcome ∧
    ((SOANumericTable.getBlockOfRows cast t idx num rw ty b1).outcome = .ok Status.OK →
      (SOANumericTable.getBlockOfRows cast t idx num rw ty b1).block =
        (SOANumericTable.getBlockOfRows cast t idx num rw ty b2).block) := by
  unfold SOANumericTable.getBlockOfRows
  by_cases h1 : rows_in_range t.nRows idx num = true
  · simp only [h1, if_true]
    cases hb : bound_columns t.arrays with
    | none =>
      refine ⟨rfl, ?_⟩
      intro h
      injection h with h
      exact absurd h unknown_error_ne_OK
    | some columns => exact ⟨rfl, fun _ => rfl⟩
  · simp only [h1]
    refine ⟨rfl, ?_⟩
    intro h
    injection h with h
    exact absurd h range_error_ne_OK

theorem soa_column_block_independent {α : Type}
    (cast : scalar_type → scalar_type → α → α)
    (t : SOANumericTable α) (c idx num : Nat) (rw : ReadWriteMode) (ty : scalar_type)
    (b1 b2 : BlockDescriptor α) :
    (SOANumericTable.getBlockOfColumnValues cast t c idx num rw ty b1).outcome =
      (SOANumericTable.getBlockOfColumnValues cast t c idx num rw ty b2).outcome ∧
    ((SOANumericTable.getBlockOfColumnValues cast t c idx num rw ty b1).outcome
        = .ok Status.OK →
      (SOANumericTable.getBlockOfColumnValues cast t c idx num rw ty b1).block =
        (SOANumericTable.getBlockOfColumnValues cast t c idx num rw ty b2).block) := by
  unfold SOANumericTable.getBlockOfColumnValues
  by_cases h1 : (column_in_range t.nColumns c && rows_in_range t.nRows idx num) = true
  · simp only [h1, if_true]
    cases ha : t.arrays.getD c none with
    | none =>
      refine ⟨rfl, ?_⟩
      intro h
      injection h with h
      exact absurd h unknown_error_ne_OK
    | some a =>
      by_cases h2 : ty = a.type
      · simp [h2]
      · simp [h2]
  · simp only [h1]
    refine ⟨rfl, ?_⟩
    intro h
    injection h with h
    exact absurd h range_error_ne_OK

theorem convert_eq_OK (o : Except dal_exception Status)
    (h : convert_exception_to_status (fun _ => o) = Status.OK) : o = .ok Status.OK := by
  cases o with
  | ok s => simp [convert_exception_to_status] at h; rw [h]
  | error e =>
    cases e <;> simp [convert_exception_to_status] at h <;> exact absurd h (by decide)

theorem base_rows_block_independent {α : Type} [Inhabited α]
    (status_to_exception : Status → Except dal_exception Unit)
    (cast : scalar_type → scalar_type → α → α)
    (Data : scalar_type) (table : homogen_table α) (stat : Status)
    (self : host_homogen_table_adapter α)
    (h : host_homogen_table_adapter.create status_to_exception cast Data table =
      .ok (.completed stat self))
    (idx num : Nat) (rw : ReadWriteMode) (ty : scalar_type) (b1 b2 : BlockDescriptor α) :
    (self.base.getBlockOfRows idx num rw ty b1).outcome =
      (self.base.getBlockOfRows idx num rw ty b2).outcome ∧
    ((self.base.getBlockOfRows idx num rw ty b1).outcome = .ok Status.OK →
      (self.base.getBlockOfRows idx num rw ty b1).block =
        (self.base.getBlockOfRows idx num rw ty b2).block) := by
  obtain ⟨hrow, hcol⟩ := created_base status_to_exception cast Data table stat self h
  cases hl : table.layout with
  | row_major =>
    rw [hrow hl]
    exact homogen_rows_block_independent cast _ idx num rw ty b1 b2
  | column_major =>
    rw [hcol hl]
    exact soa_rows_block_independent cast _ idx num rw ty b1 b2

theorem base_column_block_independent {α : Type} [Inhabited α]
    (status_to_exception : Status → Except dal_exception Unit)
    (cast : scalar_type → scalar_type → α → α)
    (Data : scalar_type) (table : homogen_table α) (stat : Status)
    (self : host_homogen_table_adapter α)
    (h : host_homogen_table_adapter.create status_to_exception cast Data table =
      .ok (.completed stat self))
    (c idx num : Nat) (rw : ReadWriteMode) (ty : scalar_type) (b1 b2 : BlockDescriptor α) :
    (self.base.getBlockOfColumnValues c idx num rw ty b1).outcome =
      (self.base.getBlockOfColumnValues c idx num rw ty b2).outcome ∧
    ((self.base.getBlockOfColumnValues c idx num rw ty b1).outcome = .ok Status.OK →
      (self.base.getBlockOfColumnValues c idx num rw ty b1).block =
        (self.base.getBlockOfColumnValues c idx num rw ty b2).block) := by
  obtain ⟨hrow, hcol⟩ := created_base status_to_exception cast Data table stat self h
  cases hl : table.layout with
  | row_major =>
    rw [hrow hl]
    exact homogen_column_block_independent cast _ c idx num rw ty b1 b2
  | column_major =>
    rw [hcol hl]
    exact soa_column_block_independent cast _ c idx num rw ty b1 b2

/-- C11: for every adapter, every block, every block scalar kind and whatever
`reset()` does to a descriptor, `releaseBlockOfRows` and
`releaseBlockOfColumnValues` return the OK status, hand back the reset
descriptor and leave the adapter (its stored table handle with the source
buffer, and its underlying table) as it was. For every adapter `create`
returns, a read-only request repeated on the released block then returns the
status of the first request and, when that was OK, the same block and the same
values. -/
theorem release_keeps_adapter {α : Type} [Inhabited α]
    (status_to_exception : Status → Except dal_exception Unit)
    (cast : scalar_type → scalar_type → α → α)
    (Data : scalar_type) (table : homogen_table α) (stat : Status)
    (self : host_homogen_table_adapter α)
    (reset : BlockDescriptor α → BlockDescriptor α)
    (feature_idx vector_idx vector_num : Nat) (BlockData : scalar_type)
    (block : BlockDescriptor α) :
    self.releaseBlockOfRows reset BlockData block = ⟨Status.OK, reset block, self⟩ ∧
    self.releaseBlockOfColumnValues reset BlockData block = ⟨Status.OK, reset block, self⟩ ∧
    (rows_read_release_read self reset vector_idx vector_num BlockData block).2.self = self ∧
    (column_read_release_read self reset feature_idx vector_idx vector_num BlockData
      block).2.self = self ∧
    (host_homogen_table_adapter.create status_to_exception cast Data table =
        .ok (.completed stat self) →
      ((rows_read_release_read self reset vector_idx vector_num BlockData block).2.status =
        (rows_read_release_read self reset vector_idx vector_num BlockData block).1.status ∧
       ((rows_read_release_read self reset vector_idx vector_num BlockData block).1.status
          = Status.OK →
        (rows_read_release_read self reset vector_idx vector_num BlockData block).2.block =
          (rows_read_release_read self reset vector_idx vector_num BlockData block).1.block ∧
        (rows_read_release_read self reset vector_idx vector_num BlockData
            block).2.block.values table.data =
          (rows_read_release_read self reset vector_idx vector_num BlockData
            block).1.block.values table.data)) ∧
      ((column_read_release_read self reset feature_idx vector_idx vector_num BlockData
          block).2.status =
        (column_read_release_read self reset feature_idx vector_idx vector_num BlockData
          block).1.status ∧
       ((column_read_release_read self reset feature_idx vector_idx vector_num BlockData
          block).1.status = Status.OK →
        (column_read_release_read self reset feature_idx vector_idx vector_num BlockData
            block).2.block =
          (column_read_release_read self reset feature_idx vector_idx vector_num BlockData
            block).1.block ∧
        (column_read_release_read self reset feature_idx vector_idx vector_num BlockData
            block).2.block.values table.data =
          (column_read_release_read self reset feature_idx vector_idx vector_num BlockData
            block).1.block.values table.data))) := by
  refine ⟨rfl, rfl, rfl, rfl, ?_⟩
  intro h
  constructor
  · obtain ⟨ho, hb⟩ := base_rows_block_independent status_to_exception cast Data table stat
      self h vector_idx vector_num .readOnly BlockData block
      (reset (self.base.getBlockOfRows vector_idx vector_num .readOnly BlockData block).block)
    simp only [rows_read_release_read, host_homogen_table_adapter.getBlockOfRows,
      host_homogen_table_adapter.read_rows_impl, host_homogen_table_adapter.releaseBlockOfRows,
      ne_eq, not_true_eq_false, if_false]
    refine ⟨by rw [ho], ?_⟩
    intro hs
    have hb2 := hb (convert_eq_OK _ hs)
    exact ⟨hb2.symm, congrArg (BlockDescriptor.values table.data) hb2.symm⟩
  · obtain ⟨ho, hb⟩ := base_column_block_independent status_to_exception cast Data table stat
      self h feature_idx vector_idx vector_num .readOnly BlockData block
      (reset (self.base.getBlockOfColumnValues feature_idx vector_idx vector_num .readOnly
        BlockData block).block)
    simp only [column_read_release_read, host_homogen_table_adapter.getBlockOfColumnValues,
      host_homogen_table_adapter.read_column_values_impl,
      host_homogen_table_adapter.releaseBlockOfColumnValues,
      ne_eq, not_true_eq_false, if_false]
    refine ⟨by rw [ho], ?_⟩
    intro hs
    have hb2 := hb (convert_eq_OK _ hs)
    exact ⟨hb2.symm, congrArg (BlockDescriptor.values table.data) hb2.symm⟩

/-- C11 at a concrete input: rows 1 and 2 of the 4 by 2 row-major table are read,
the block is released, and the same rows are read again: both reads are OK and
give the values `3,4,5,6`. -/
theorem release_keeps_adapter_witness :
    host_homogen_table_adapter.create sample_status_to_exception sample_cast .float
      sample_row_major = .ok (.completed Status.OK sample_row_major_adapter) ∧
    (rows_read_release_read sample_row_major_adapter sample_reset 1 2 .float
      ⟨.null, 0, 0⟩).1.status = Status.OK ∧
    (rows_read_release_read sample_row_major_adapter sample_reset 1 2 .float
      ⟨.null, 0, 0⟩).2.status = Status.OK ∧
    (rows_read_release_read sample_row_major_adapter sample_reset 1 2 .float
      ⟨.null, 0, 0⟩).1.block.values sample_row_major.data = [3, 4, 5, 6] ∧
    (rows_read_release_read sample_row_major_adapter sample_reset 1 2 .float
      ⟨.null, 0, 0⟩).2.block.values sample_row_major.data = [3, 4, 5, 6] :=
  ⟨rfl, by decide,
   ((release_keeps_adapter sample_status_to_exception sample_cast .float sample_row_major
      Status.OK sample_row_major_adapter sample_reset 0 1 2 .float ⟨.null, 0, 0⟩).2.2.2.2
      rfl).1.1.trans (by decide),
   by decide,
   (((release_keeps_adapter sample_status_to_exception sample_cast .float sample_row_major
      Status.OK sample_row_major_adapter sample_reset 0 1 2 .float ⟨.null, 0, 0⟩).2.2.2.2
      rfl).1.2 (by decide)).2.trans (by decide)⟩

/-- C13: for every adapter, a `getBlockOfRows` or `getBlockOfColumnValues` request
whose flag is not `readOnly`, and every stub operation, leaves the adapter
object equal to what it was, and the block of the request as it was; so every
later read-only request, also one on that same block, returns exactly the
status, block and adapter it returns when the failing request is never made. -/
theorem failing_request_keeps_adapter {α Archive : Type} (self : host_homogen_table_adapter α)
    (feature_idx vector_idx vector_num : Nat) (rwflag : ReadWriteMode)
    (BlockData : scalar_type) (block : BlockDescriptor α) (value : α) (memType nColumns : Nat)
    (arch : Archive) (h : rwflag ≠ .readOnly) :
    (self.getBlockOfRows vector_idx vector_num rwflag BlockData block).block = block ∧
    (self.getBlockOfColumnValues feature_idx vector_idx vector_num rwflag BlockData
      block).block = block ∧
    (∀ after ∈ after_failing_request self feature_idx vector_idx vector_num rwflag BlockData
        block value memType nColumns arch,
      after = self ∧
      ∀ (feature_idx2 vector_idx2 vector_num2 : Nat) (BlockData2 : scalar_type)
        (block2 : BlockDescriptor α),
        after.getBlockOfRows vector_idx2 vector_num2 .readOnly BlockData2 block2 =
          self.getBlockOfRows vector_idx2 vector_num2 .readOnly BlockData2 block2 ∧
        after.getBlockOfColumnValues feature_idx2 vector_idx2 vector_num2 .readOnly BlockData2
            block2 =
          self.getBlockOfColumnValues feature_idx2 vector_idx2 vector_num2 .readOnly BlockData2
            block2) := by
  refine ⟨?_, ?_, ?_⟩
  · simp [host_homogen_table_adapter.getBlockOfRows, host_homogen_table_adapter.read_rows_impl,
      h]
  · simp [host_homogen_table_adapter.getBlockOfColumnValues,
      host_homogen_table_adapter.read_column_values_impl, h]
  · intro after hmem
    have hself : after = self := by
      simp only [after_failing_request, List.mem_cons, List.mem_singleton, List.mem_nil_iff,
        or_false] at hmem
      rcases hmem with h1 | h1 | h1 | h1 | h1 | h1 | h1 | h1 | h1 <;> exact h1
    subst hself
    exact ⟨rfl, fun _ _ _ _ _ => ⟨rfl, rfl⟩⟩

/-- C13 at a concrete input: after a `readWrite` row request on the adapter of the
4 by 2 row-major table, the adapter is the same and a read-only request for
all rows on the same block still gives the values `1,...,8`. -/
theorem failing_request_keeps_adapter_witness :
    ReadWriteMode.readWrite ≠ .readOnly ∧
    (sample_row_major_adapter.getBlockOfRows 0 4 .readWrite .float ⟨.null, 0, 0⟩).self =
      sample_row_major_adapter ∧
    (((sample_row_major_adapter.getBlockOfRows 0 4 .readWrite .float ⟨.null, 0, 0⟩).self
        ).getBlockOfRows 0 4 .readOnly .float
        (sample_row_major_adapter.getBlockOfRows 0 4 .readWrite .float
          ⟨.null, 0, 0⟩).block).block.values sample_row_major.data = [1, 2, 3, 4, 5, 6, 7, 8] :=
  ⟨by decide,
   ((@failing_request_keeps_adapter Nat Unit sample_row_major_adapter 0 0 4 .readWrite
      .float ⟨.null, 0, 0⟩ 0 0 0 () (by decide)).2.2 _ (List.mem_cons_self _ _)).1,
   by decide⟩

end interop
